import Mathlib

set_option linter.unusedVariables false

/- Verification development for the font-data access layer
   (src/font_data_impl.rs): the lazy-load cache, the cmap encoding
   selector, face construction, glyph-index lookup, glyph naming with
   de-duplication, sbix dupe lookup, embedded-image resolution and the
   metrics accessors.  Out-of-scope collaborators (byte-level parsers,
   the glyph namer, the advance computation) are modelled at their
   interfaces as fields of a Collaborators record. -/

/-- Parse errors raised by the external binary readers and parsers
(mirrors crate error ParseError at the granularity these claims need). -/
inductive ParseError where
  | BadVersion
  | BadOffset
  | BadEof
  | BadValue
  | MissingValue
  | LimitExceeded
  deriving DecidableEq, Repr

/-- Result of an operation that can abort the process (a Rust panic,
for example an out-of-bounds slice or an unwrap of an error). -/
inductive MayAbort (A : Type) where
  | aborts
  | value (a : A)
  deriving DecidableEq, Repr

/-- Modelled from the spec: bit depth of an embedded bitmap (external
bitmap module, consumed opaquely by the resolver). -/
inductive BitDepth where
  | One
  | Two
  | Four
  | Eight
  | ThirtyTwo
  deriving DecidableEq, Repr

/-- Character-map encoding classification (source enum Encoding). -/
inductive Encoding where
  | Unicode
  | Symbol
  | AppleRoman
  | Big5
  deriving DecidableEq, Repr

/-- Outline container classification (source enum OutlineFormat). -/
inductive OutlineFormat where
  | Glyf
  | Cff
  | None
  deriving DecidableEq, Repr

/-- The tri-state lazy cache (source enum LazyLoad). -/
inductive LazyLoad (T : Type) where
  | NotLoaded
  | Loaded (v : Option T)
  deriving DecidableEq, Repr

/-- Source LazyLoad get_or_load, with the state passed explicitly: the
mutation of self becomes the second component of the result.  On the
Loaded branches the state is returned unchanged; on the NotLoaded branch
the closure result is stored only when it is ok. -/
def LazyLoad.get_or_load {T : Type} (self : LazyLoad T)
    (do_load : Unit → Except ParseError (Option T)) :
    Except ParseError (Option T) × LazyLoad T :=
  match self with
  | .Loaded (some data) => (Except.ok (some data), .Loaded (some data))
  | .Loaded none => (Except.ok none, .Loaded none)
  | .NotLoaded =>
    match do_load () with
    | .error e => (Except.error e, .NotLoaded)
    | .ok data => (Except.ok data, .Loaded data)

namespace tag

/-- Modelled from the spec: 4-byte table tags (external tag module),
written as their big-endian 32-bit values. -/
def CMAP : Nat := 0x636D6170

def MAXP : Nat := 0x6D617870

def HMTX : Nat := 0x686D7478

def HHEA : Nat := 0x68686561

def VMTX : Nat := 0x766D7478

def VHEA : Nat := 0x76686561

def GDEF : Nat := 0x47444546

def GSUB : Nat := 0x47535542

def GPOS : Nat := 0x47504F53

def POST : Nat := 0x706F7374

def GLYF : Nat := 0x676C7966

def CFF : Nat := 0x43464620

def SBIX : Nat := 0x73626978

def SVG : Nat := 0x53564720

def CBLC : Nat := 0x43424C43

def CBDT : Nat := 0x43424454

def HEAD : Nat := 0x68656164

def OS_2 : Nat := 0x4F532F32

def DUPE : Nat := 0x64757065

end tag

namespace PlatformId

/-- Modelled from the spec: cmap platform identifiers (external cmap
module; standard OpenType values). -/
def UNICODE : Nat := 0

def MACINTOSH : Nat := 1

def WINDOWS : Nat := 3

end PlatformId

namespace EncodingId

/-- Modelled from the spec: cmap encoding identifiers (external cmap
module; standard OpenType values). -/
def WINDOWS_SYMBOL : Nat := 0

def WINDOWS_UNICODE_BMP_UCS2 : Nat := 1

def WINDOWS_BIG5 : Nat := 4

def WINDOWS_UNICODE_UCS4 : Nat := 10

def MACINTOSH_APPLE_ROMAN : Nat := 0

def MACINTOSH_UNICODE_UCS4 : Nat := 4

end EncodingId

/-- One cmap encoding record: platform id, encoding id and the byte
offset of the subtable within the cmap table. -/
structure EncodingRecord where
  platform_id : Nat
  encoding_id : Nat
  offset : Nat
  deriving DecidableEq, Repr

/-- Modelled from the spec: the parsed cmap header, a list of
(platform, encoding, offset) records (external cmap module). -/
structure Cmap where
  encoding_records : List EncodingRecord
  deriving DecidableEq, Repr

/-- Modelled from the spec: first record with the given platform and
encoding ids (external cmap find_subtable). -/
def Cmap.find_subtable (cmap : Cmap) (platform encoding : Nat) :
    Option EncodingRecord :=
  cmap.encoding_records.find?
    (fun r => r.platform_id == platform && r.encoding_id == encoding)

/-- Modelled from the spec: first record on the given platform,
regardless of encoding (external cmap find_subtable_for_platform). -/
def Cmap.find_subtable_for_platform (cmap : Cmap) (platform : Nat) :
    Option EncodingRecord :=
  cmap.encoding_records.find? (fun r => r.platform_id == platform)

/-- Modelled from the spec: a parsed cmap subtable, specified only
through its glyph-mapping interface (external cmap module).  map_glyph
may fail or report the character as unmapped. -/
structure CmapSubtable where
  map_glyph : Nat → Except ParseError (Option Nat)

/-- Modelled from the spec: parsed maxp table; only the glyph count is
consumed by this core. -/
structure MaxpTable where
  num_glyphs : Nat
  deriving DecidableEq, Repr

/-- Modelled from the spec: parsed hhea (also reused for vhea); only its
presence matters to this core, the advance computation consumes it
opaquely. -/
structure HheaTable where
  num_h_metrics : Nat
  deriving DecidableEq, Repr

/-- Modelled from the spec: parsed GDEF table, consumed opaquely. -/
structure GDEFTable where
  data : List Nat
  deriving DecidableEq, Repr

/-- Modelled from the spec: parsed GSUB layout table, consumed opaquely. -/
structure LayoutTableGSUB where
  data : List Nat
  deriving DecidableEq, Repr

/-- Modelled from the spec: parsed GPOS layout table, consumed opaquely. -/
structure LayoutTableGPOS where
  data : List Nat
  deriving DecidableEq, Repr

/-- Modelled from the spec: layout cache wrapper around a GSUB table. -/
structure LayoutCacheGSUB where
  table : LayoutTableGSUB
  deriving DecidableEq, Repr

/-- Modelled from the spec: layout cache wrapper around a GPOS table. -/
structure LayoutCacheGPOS where
  table : LayoutTableGPOS
  deriving DecidableEq, Repr

/-- Modelled from the spec: parsed CBLC (strike directory) view; its
interior is out of scope, the resolver only stores it. -/
structure CBLCTable where
  data : List Nat
  deriving DecidableEq, Repr

/-- Modelled from the spec: parsed CBDT (bitmap data) view. -/
structure CBDTTable where
  data : List Nat
  deriving DecidableEq, Repr

/-- Modelled from the spec: parsed SVG table view. -/
structure SvgTable where
  data : List Nat
  deriving DecidableEq, Repr

/-- Modelled from the spec: one sbix glyph record: a graphic-type tag
and the record payload bytes. -/
structure SbixGlyph where
  graphic_type : Nat
  data : List Nat
  deriving DecidableEq, Repr

/-- Modelled from the spec: one sbix strike, specified through its ppem
and its per-glyph record reader (external sbix module). -/
structure SbixStrike where
  ppem : Nat
  read_glyph : Nat → Except ParseError (Option SbixGlyph)

/-- Modelled from the spec: the parsed sbix table, specified through its
strike search (size and bit-depth negotiation is out of scope). -/
structure SbixTable where
  find_strike : Nat → Nat → BitDepth → Option SbixStrike

/-- Modelled from the spec: a bitmap produced for a glyph; it carries
the payload bytes of the record it came from. -/
structure BitmapGlyph where
  ppem : Nat
  data : List Nat
  deriving DecidableEq, Repr

/-- Modelled from the spec: conversion of an sbix strike plus glyph
record into a bitmap (external BitmapGlyph conversion); the payload is
the record data. -/
def bitmap_glyph_from_sbix (strike : SbixStrike) (glyph : SbixGlyph) :
    BitmapGlyph :=
  { ppem := strike.ppem, data := glyph.data }

/-- Modelled from the spec: read a 16-bit big-endian value from the
front of a byte list (external binary reader read_u16be). -/
def read_u16be (data : List Nat) : Except ParseError Nat :=
  match data with
  | b0 :: b1 :: _ => Except.ok ((b0 % 256) * 256 + b1 % 256)
  | _ => Except.error ParseError.BadEof

/-- The embedded image bundle (source enum Images; the rental wrappers
pairing each parsed view with its owned bytes are flattened to values). -/
inductive Images where
  | Embedded (cblc : CBLCTable) (cbdt : CBDTTable)
  | Sbix (sbix : SbixTable)
  | Svg (svg : SvgTable)

/-- The table provider capability, at the interface the spec gives it. -/
structure FontTableProvider where
  read_table_data : Nat → Except ParseError (List Nat)
  table_data : Nat → Except ParseError (Option (List Nat))
  has_table : Nat → Bool

/-- Modelled from the spec: the out-of-scope collaborators (byte-level
parsers, the layout-cache constructor, the advance computation and the
glyph namer), each specified only at its interface. -/
structure Collaborators where
  parse_cmap : List Nat → Except ParseError Cmap
  parse_maxp : List Nat → Except ParseError MaxpTable
  parse_hhea : List Nat → Except ParseError HheaTable
  parse_cmap_subtable : List Nat → Except ParseError CmapSubtable
  parse_cblc : List Nat → Except ParseError CBLCTable
  parse_cbdt : List Nat → Except ParseError CBDTTable
  parse_sbix : Nat → List Nat → Except ParseError SbixTable
  parse_svg : List Nat → Except ParseError SvgTable
  parse_gdef : List Nat → Except ParseError GDEFTable
  parse_gsub : List Nat → Except ParseError LayoutTableGSUB
  parse_gpos : List Nat → Except ParseError LayoutTableGPOS
  new_layout_cache_gsub : LayoutTableGSUB → LayoutCacheGSUB
  new_layout_cache_gpos : LayoutTableGPOS → LayoutCacheGPOS
  advance : MaxpTable → HheaTable → List Nat → Nat → Except ParseError Nat
  glyph_name_with :
    Option (Encoding × CmapSubtable) → Option (List Nat) → Nat → String

/-- The face data manager (source struct FontDataImpl); reference
counting on cached values is dropped, handles become values. -/
structure FontDataImpl where
  font_table_provider : FontTableProvider
  cmap_table : List Nat
  maxp_table : MaxpTable
  hmtx_table : List Nat
  hhea_table : HheaTable
  vmtx_table : LazyLoad (List Nat)
  vhea_table : LazyLoad HheaTable
  cmap_subtable_offset : Nat
  cmap_subtable_encoding : Encoding
  gdef_cache : LazyLoad GDEFTable
  gsub_cache : LazyLoad LayoutCacheGSUB
  gpos_cache : LazyLoad LayoutCacheGPOS
  outline_format : OutlineFormat
  embedded_images : LazyLoad Images

/-- Source read_and_box_table: Cow into owned box is the identity on the
byte list. -/
def read_and_box_table (provider : FontTableProvider) (t : Nat) :
    Except ParseError (List Nat) :=
  provider.read_table_data t

/-- Source read_and_box_optional_table. -/
def read_and_box_optional_table (provider : FontTableProvider) (t : Nat) :
    Except ParseError (Option (List Nat)) :=
  provider.table_data t

/-- Source find_good_cmap_subtable: the fixed if-let chain of
platform/encoding lookups with early returns. -/
def find_good_cmap_subtable (cmap : Cmap) :
    Option (Encoding × EncodingRecord) :=
  if let some encoding_record :=
      cmap.find_subtable PlatformId.WINDOWS EncodingId.WINDOWS_UNICODE_UCS4 then
    some (Encoding.Unicode, encoding_record)
  else if let some encoding_record :=
      cmap.find_subtable PlatformId.WINDOWS EncodingId.WINDOWS_UNICODE_BMP_UCS2 then
    some (Encoding.Unicode, encoding_record)
  else if let some encoding_record :=
      cmap.find_subtable PlatformId.UNICODE EncodingId.MACINTOSH_UNICODE_UCS4 then
    some (Encoding.Unicode, encoding_record)
  else if let some encoding_record :=
      cmap.find_subtable_for_platform PlatformId.UNICODE then
    some (Encoding.Unicode, encoding_record)
  else if let some encoding_record :=
      cmap.find_subtable PlatformId.WINDOWS EncodingId.WINDOWS_SYMBOL then
    some (Encoding.Symbol, encoding_record)
  else if let some encoding_record :=
      cmap.find_subtable PlatformId.MACINTOSH EncodingId.MACINTOSH_APPLE_ROMAN then
    some (Encoding.AppleRoman, encoding_record)
  else if let some encoding_record :=
      cmap.find_subtable PlatformId.WINDOWS EncodingId.WINDOWS_BIG5 then
    some (Encoding.Big5, encoding_record)
  else
    none

/-- One query of the priority list the specification describes: either a
(platform, encoding) pair or any record on a platform. -/
inductive CmapQuery where
  | pair (platform encoding : Nat)
  | any_on_platform (platform : Nat)
  deriving DecidableEq, Repr

/-- Run one priority-list query against a cmap. -/
def run_cmap_query (cmap : Cmap) : CmapQuery → Option EncodingRecord
  | .pair p e => cmap.find_subtable p e
  | .any_on_platform p => cmap.find_subtable_for_platform p

/-- The selector priority list exactly as the specification words it:
Windows UCS4, Windows BMP/UCS2, Unicode-platform UCS4, any Unicode
platform record, Windows Symbol, Macintosh Apple-Roman, Windows Big5. -/
def spec_selector_priority : List (CmapQuery × Encoding) :=
  [ (CmapQuery.pair PlatformId.WINDOWS EncodingId.WINDOWS_UNICODE_UCS4,
      Encoding.Unicode),
    (CmapQuery.pair PlatformId.WINDOWS EncodingId.WINDOWS_UNICODE_BMP_UCS2,
      Encoding.Unicode),
    (CmapQuery.pair PlatformId.UNICODE EncodingId.MACINTOSH_UNICODE_UCS4,
      Encoding.Unicode),
    (CmapQuery.any_on_platform PlatformId.UNICODE, Encoding.Unicode),
    (CmapQuery.pair PlatformId.WINDOWS EncodingId.WINDOWS_SYMBOL,
      Encoding.Symbol),
    (CmapQuery.pair PlatformId.MACINTOSH EncodingId.MACINTOSH_APPLE_ROMAN,
      Encoding.AppleRoman),
    (CmapQuery.pair PlatformId.WINDOWS EncodingId.WINDOWS_BIG5,
      Encoding.Big5) ]

/-- The encoding selector as the specification words it: first match of
the priority list. -/
def find_good_cmap_subtable_spec (cmap : Cmap) :
    Option (Encoding × EncodingRecord) :=
  spec_selector_priority.findSome?
    (fun q => (run_cmap_query cmap q.1).map (fun r => (q.2, r)))

/-- Source charmap_info: parse the cmap table and pick the subtable. -/
def charmap_info (C : Collaborators) (cmap_buf : List Nat) :
    Except ParseError (Option (Encoding × Nat)) :=
  match C.parse_cmap cmap_buf with
  | .error e => Except.error e
  | .ok cmap =>
    Except.ok ((find_good_cmap_subtable cmap).map
      (fun p => (p.1, p.2.offset)))

/-- The usize conversion of the chosen 32-bit subtable offset: on the
64-bit targets modelled here every 32-bit value fits, so the conversion
is total. -/
def usize_try_from (n : Nat) : Except ParseError Nat :=
  Except.ok n

/-- Source FontDataImpl::new, the fallible factory: read cmap, select a
subtable, read and parse maxp, hmtx and hhea, classify the outline
format, and return none when no usable subtable exists. -/
def new (C : Collaborators) (provider : FontTableProvider) :
    Except ParseError (Option FontDataImpl) :=
  match read_and_box_table provider tag.CMAP with
  | .error e => Except.error e
  | .ok cmap_table =>
    match charmap_info C cmap_table with
    | .error e => Except.error e
    | .ok none => Except.ok none
    | .ok (some (cmap_subtable_encoding, cmap_subtable_offset)) =>
      match provider.read_table_data tag.MAXP with
      | .error e => Except.error e
      | .ok maxp_data =>
        match C.parse_maxp maxp_data with
        | .error e => Except.error e
        | .ok maxp_table =>
          match read_and_box_table provider tag.HMTX with
          | .error e => Except.error e
          | .ok hmtx_table =>
            match provider.read_table_data tag.HHEA with
            | .error e => Except.error e
            | .ok hhea_data =>
              match C.parse_hhea hhea_data with
              | .error e => Except.error e
              | .ok hhea_table =>
                let outline_format :=
                  if provider.has_table tag.SBIX || provider.has_table tag.SVG then
                    OutlineFormat.None
                  else if provider.has_table tag.GLYF then
                    OutlineFormat.Glyf
                  else if provider.has_table tag.CFF then
                    OutlineFormat.Cff
                  else
                    OutlineFormat.None
                match usize_try_from cmap_subtable_offset with
                | .error e => Except.error e
                | .ok off =>
                  Except.ok (some
                    { font_table_provider := provider
                      cmap_table := cmap_table
                      maxp_table := maxp_table
                      hmtx_table := hmtx_table
                      hhea_table := hhea_table
                      vmtx_table := LazyLoad.NotLoaded
                      vhea_table := LazyLoad.NotLoaded
                      cmap_subtable_offset := off
                      cmap_subtable_encoding := cmap_subtable_encoding
                      gdef_cache := LazyLoad.NotLoaded
                      gsub_cache := LazyLoad.NotLoaded
                      gpos_cache := LazyLoad.NotLoaded
                      outline_format := outline_format
                      embedded_images := LazyLoad.NotLoaded })

/-- Source cmap_subtable_data: the slice of the stored cmap bytes from
the stored offset; a Rust range slice aborts when the offset exceeds the
buffer length. -/
def cmap_subtable_data (fd : FontDataImpl) : MayAbort (List Nat) :=
  if fd.cmap_subtable_offset ≤ fd.cmap_table.length then
    MayAbort.value (fd.cmap_table.drop fd.cmap_subtable_offset)
  else
    MayAbort.aborts

/-- Source lookup_glyph_index: parse the chosen subtable from the stored
slice, map the character code, and collapse every failure to glyph 0. -/
def lookup_glyph_index (C : Collaborators) (fd : FontDataImpl)
    (char_code : Nat) : MayAbort Nat :=
  match cmap_subtable_data fd with
  | .aborts => MayAbort.aborts
  | .value data =>
    match C.parse_cmap_subtable data with
    | .ok cmap_subtable =>
      match cmap_subtable.map_glyph char_code with
      | .ok (some glyph_index) => MayAbort.value glyph_index
      | _ => MayAbort.value 0
    | .error _ => MayAbort.value 0

/-- Rust formatting of a number with width 2 and zero fill, as used by
the alt-name format string. -/
def pad2 (n : Nat) : String :=
  if n < 10 then "0" ++ toString n else toString n

/-- The alternative name the source builds for a duplicate: the original
name followed by ".alt" and the two-digit sequence number. -/
def alt_name (name : String) (alt : Nat) : String :=
  name ++ ".alt" ++ pad2 alt

/-- The loop of source unique_glyph_names: seen maps a name to how many
times it has occurred so far (the hash map holding the per-name counter,
at its interface). -/
def unique_glyph_names_go (seen : String → Nat) :
    List String → List String
  | [] => []
  | name :: rest =>
    let alt := seen name
    let unique_name := if alt = 0 then name else alt_name name alt
    unique_name ::
      unique_glyph_names_go
        (fun m => if m = name then alt + 1 else seen m) rest

/-- Source unique_glyph_names; capacity only sizes the hash map and does
not affect the result. -/
def unique_glyph_names (names : List String) (capacity : Nat) :
    List String :=
  unique_glyph_names_go (fun _ => 0) names

/-- Source glyph_names: read the optional post bytes (absorbing read
errors), parse the chosen cmap subtable (absorbing parse errors), hand
both to the external namer, and de-duplicate.  The slice of the cmap
bytes can abort exactly as cmap_subtable_data can. -/
def glyph_names (C : Collaborators) (fd : FontDataImpl) (ids : List Nat) :
    MayAbort (List String) :=
  let post :=
    match read_and_box_optional_table fd.font_table_provider tag.POST with
    | .ok p => p
    | .error _ => none
  match cmap_subtable_data fd with
  | .aborts => MayAbort.aborts
  | .value data =>
    let cmap :=
      match C.parse_cmap_subtable data with
      | .ok table => some (fd.cmap_subtable_encoding, table)
      | .error _ => none
    let names := ids.map (C.glyph_name_with cmap post)
    MayAbort.value (unique_glyph_names names ids.length)

/-- Source lookup_sbix_glyph_bitmap: find the strike, read the record,
follow at most one dupe indirection (the dupe flag marks that we are
already inside an indirected lookup). -/
def lookup_sbix_glyph_bitmap (sbix : SbixTable) (dupe : Bool)
    (glyph_index target_ppem : Nat) (max_bit_depth : BitDepth) :
    Except ParseError (Option BitmapGlyph) :=
  match sbix.find_strike glyph_index target_ppem max_bit_depth with
  | some strike =>
    match strike.read_glyph glyph_index with
    | .error e => Except.error e
    | .ok (some glyph) =>
      if glyph.graphic_type = tag.DUPE then
        if h : dupe then
          Except.ok none
        else
          match read_u16be glyph.data with
          | .error e => Except.error e
          | .ok dupe_glyph_index =>
            lookup_sbix_glyph_bitmap sbix true dupe_glyph_index
              target_ppem max_bit_depth
      else
        Except.ok (some (bitmap_glyph_from_sbix strike glyph))
    | .ok none => Except.ok none
  | none => Except.ok none
termination_by (if dupe then 0 else 1)
decreasing_by
  simp_all

/-- Source load_cblc_cbdt: read and parse the strike directory and the
bitmap data tables. -/
def load_cblc_cbdt (C : Collaborators) (provider : FontTableProvider) :
    Except ParseError (CBLCTable × CBDTTable) :=
  match read_and_box_table provider tag.CBLC with
  | .error e => Except.error e
  | .ok cblc_data =>
    match read_and_box_table provider tag.CBDT with
    | .error e => Except.error e
    | .ok cbdt_data =>
      match C.parse_cblc cblc_data with
      | .error e => Except.error e
      | .ok cblc =>
        match C.parse_cbdt cbdt_data with
        | .error e => Except.error e
        | .ok cbdt => Except.ok (cblc, cbdt)

/-- Source load_sbix: read and parse the sbix table against the glyph
count. -/
def load_sbix (C : Collaborators) (provider : FontTableProvider)
    (num_glyphs : Nat) : Except ParseError SbixTable :=
  match read_and_box_table provider tag.SBIX with
  | .error e => Except.error e
  | .ok sbix_data => C.parse_sbix num_glyphs sbix_data

/-- Source load_svg (present but unused by the resolver, whose SVG path
is disabled). -/
def load_svg (C : Collaborators) (provider : FontTableProvider) :
    Except ParseError SvgTable :=
  match read_and_box_table provider tag.SVG with
  | .error e => Except.error e
  | .ok svg_data => C.parse_svg svg_data

/-- Source embedded_images: on first access try CBLC/CBDT, on failure
try sbix, and propagate a second failure through the question-mark
operator; the result is memoized through the lazy cache. -/
def embedded_images (C : Collaborators) (fd : FontDataImpl) :
    Except ParseError (Option Images) × FontDataImpl :=
  let provider := fd.font_table_provider
  let num_glyphs := fd.maxp_table.num_glyphs
  let p := fd.embedded_images.get_or_load (fun _ =>
    match (load_cblc_cbdt C provider).map
        (fun x => Images.Embedded x.1 x.2) with
    | .ok images => Except.ok (some images)
    | .error _ =>
      match (load_sbix C provider num_glyphs).map Images.Sbix with
      | .ok images => Except.ok (some images)
      | .error e => Except.error e)
  (p.1, { fd with embedded_images := p.2 })

/-- Source supports_emoji: true exactly when the embedded-image bundle
resolves. -/
def supports_emoji (C : Collaborators) (fd : FontDataImpl) :
    Bool × FontDataImpl :=
  let p := embedded_images C fd
  match p.1 with
  | .ok (some _) => (true, p.2)
  | _ => (false, p.2)

/-- Source horizontal_advance: the external advance computation over
maxp, hhea and the raw hmtx bytes, with errors collapsed to none. -/
def horizontal_advance (C : Collaborators) (fd : FontDataImpl)
    (glyph : Nat) : Option Nat :=
  (C.advance fd.maxp_table fd.hhea_table fd.hmtx_table glyph).toOption

/-- Source vhea_table accessor: lazily read and parse the vhea table. -/
def vhea_table (C : Collaborators) (fd : FontDataImpl) :
    Except ParseError (Option HheaTable) × FontDataImpl :=
  let provider := fd.font_table_provider
  let p := fd.vhea_table.get_or_load (fun _ =>
    match provider.table_data tag.VHEA with
    | .error e => Except.error e
    | .ok (some vhea_data) =>
      match C.parse_hhea vhea_data with
      | .error e => Except.error e
      | .ok vhea => Except.ok (some vhea)
    | .ok none => Except.ok none)
  (p.1, { fd with vhea_table := p.2 })

/-- Source vertical_advance: load the vmtx bytes and the vhea table
through their caches, collapsing load errors to none; when both are
present the advance computation result is unwrapped, so its failure
aborts. -/
def vertical_advance (C : Collaborators) (fd : FontDataImpl)
    (glyph : Nat) : MayAbort (Option Nat) × FontDataImpl :=
  let provider := fd.font_table_provider
  let p := fd.vmtx_table.get_or_load (fun _ =>
    read_and_box_optional_table provider tag.VMTX)
  let fd1 := { fd with vmtx_table := p.2 }
  match p.1 with
  | .error _ => (MayAbort.value none, fd1)
  | .ok vmtx =>
    let q := vhea_table C fd1
    let fd2 := q.2
    match q.1 with
    | .error _ => (MayAbort.value none, fd2)
    | .ok vhea =>
      match vhea, vmtx with
      | some vh, some vmtx_table =>
        match C.advance fd2.maxp_table vh vmtx_table glyph with
        | .ok a => (MayAbort.value (some a), fd2)
        | .error _ => (MayAbort.aborts, fd2)
      | _, _ => (MayAbort.value none, fd2)

/-- Source gdef_table accessor: lazily read and parse the GDEF table. -/
def gdef_table (C : Collaborators) (fd : FontDataImpl) :
    Except ParseError (Option GDEFTable) × FontDataImpl :=
  let provider := fd.font_table_provider
  let p := fd.gdef_cache.get_or_load (fun _ =>
    match provider.table_data tag.GDEF with
    | .error e => Except.error e
    | .ok (some gdef_data) =>
      match C.parse_gdef gdef_data with
      | .error e => Except.error e
      | .ok gdef => Except.ok (some gdef)
    | .ok none => Except.ok none)
  (p.1, { fd with gdef_cache := p.2 })

/-- Source gsub_cache accessor: lazily read, parse and wrap the GSUB
table in a layout cache. -/
def gsub_cache (C : Collaborators) (fd : FontDataImpl) :
    Except ParseError (Option LayoutCacheGSUB) × FontDataImpl :=
  let provider := fd.font_table_provider
  let p := fd.gsub_cache.get_or_load (fun _ =>
    match provider.table_data tag.GSUB with
    | .error e => Except.error e
    | .ok (some gsub_data) =>
      match C.parse_gsub gsub_data with
      | .error e => Except.error e
      | .ok gsub => Except.ok (some (C.new_layout_cache_gsub gsub))
    | .ok none => Except.ok none)
  (p.1, { fd with gsub_cache := p.2 })

/-- Source gpos_cache accessor: lazily read, parse and wrap the GPOS
table in a layout cache. -/
def gpos_cache (C : Collaborators) (fd : FontDataImpl) :
    Except ParseError (Option LayoutCacheGPOS) × FontDataImpl :=
  let provider := fd.font_table_provider
  let p := fd.gpos_cache.get_or_load (fun _ =>
    match provider.table_data tag.GPOS with
    | .error e => Except.error e
    | .ok (some gpos_data) =>
      match C.parse_gpos gpos_data with
      | .error e => Except.error e
      | .ok gpos => Except.ok (some (C.new_layout_cache_gpos gpos))
    | .ok none => Except.ok none)
  (p.1, { fd with gpos_cache := p.2 })

/-- A collaborator bundle whose parsers all fail; the base for concrete
instantiations. -/
def noCollab : Collaborators where
  parse_cmap := fun _ => Except.error ParseError.BadValue
  parse_maxp := fun _ => Except.error ParseError.BadValue
  parse_hhea := fun _ => Except.error ParseError.BadValue
  parse_cmap_subtable := fun _ => Except.error ParseError.BadValue
  parse_cblc := fun _ => Except.error ParseError.BadValue
  parse_cbdt := fun _ => Except.error ParseError.BadValue
  parse_sbix := fun _ _ => Except.error ParseError.BadValue
  parse_svg := fun _ => Except.error ParseError.BadValue
  parse_gdef := fun _ => Except.error ParseError.BadValue
  parse_gsub := fun _ => Except.error ParseError.BadValue
  parse_gpos := fun _ => Except.error ParseError.BadValue
  new_layout_cache_gsub := fun t => { table := t }
  new_layout_cache_gpos := fun t => { table := t }
  advance := fun _ _ _ _ => Except.error ParseError.BadValue
  glyph_name_with := fun _ _ gid => "g" ++ toString gid

/-- A provider with no tables: optional reads yield absent, required
reads fail. -/
def emptyProvider : FontTableProvider where
  read_table_data := fun _ => Except.error ParseError.MissingValue
  table_data := fun _ => Except.ok none
  has_table := fun _ => false

/-- A provider whose every required table reads as an empty byte list
and whose optional tables are absent. -/
def blankProvider : FontTableProvider where
  read_table_data := fun _ => Except.ok []
  table_data := fun _ => Except.ok none
  has_table := fun _ => false

/-- A provider whose every optional table is present with empty bytes. -/
def presentProvider : FontTableProvider where
  read_table_data := fun _ => Except.ok []
  table_data := fun _ => Except.ok (some [])
  has_table := fun _ => false

/-- Collaborators that parse any cmap bytes into a single Windows UCS4
record whose offset, 100, exceeds every table this file builds. -/
def badOffsetCollab : Collaborators :=
  { noCollab with
    parse_cmap := fun _ =>
      Except.ok { encoding_records :=
        [{ platform_id := 3, encoding_id := 10, offset := 100 }] }
    parse_maxp := fun _ => Except.ok { num_glyphs := 1 }
    parse_hhea := fun _ => Except.ok { num_h_metrics := 1 } }

/-- The same collaborators with the record offset 0, in range for every
table. -/
def goodOffsetCollab : Collaborators :=
  { badOffsetCollab with
    parse_cmap := fun _ =>
      Except.ok { encoding_records :=
        [{ platform_id := 3, encoding_id := 10, offset := 0 }] } }

/-- Collaborators accepting the hhea table, for the vertical path. -/
def vertCollab : Collaborators :=
  { noCollab with parse_hhea := fun _ => Except.ok { num_h_metrics := 1 } }

/-- Collaborators whose advance computation yields 42. -/
def advCollab : Collaborators :=
  { vertCollab with advance := fun _ _ _ _ => Except.ok 42 }

/-- Collaborators whose CBLC and CBDT parsers succeed. -/
def cbCollab : Collaborators :=
  { noCollab with
    parse_cblc := fun d => Except.ok { data := d }
    parse_cbdt := fun d => Except.ok { data := d } }

/-- A trivial sbix table with no strikes. -/
def noStrikeSbix : SbixTable where
  find_strike := fun _ _ _ => none

/-- Collaborators whose sbix parser succeeds with the trivial table. -/
def sbCollab : Collaborators :=
  { noCollab with parse_sbix := fun _ _ => Except.ok noStrikeSbix }

/-- Collaborators whose cmap subtable parser accepts, mapping character
65 to glyph 7 and everything else to unmapped. -/
def stCollab : Collaborators :=
  { noCollab with
    parse_cmap_subtable := fun _ =>
      Except.ok { map_glyph := fun c =>
        if c = 65 then Except.ok (some 7) else Except.ok none } }

/-- A concrete face over emptyProvider, with an in-range cmap offset. -/
def fd0 : FontDataImpl where
  font_table_provider := emptyProvider
  cmap_table := []
  maxp_table := { num_glyphs := 1 }
  hmtx_table := []
  hhea_table := { num_h_metrics := 1 }
  vmtx_table := LazyLoad.NotLoaded
  vhea_table := LazyLoad.NotLoaded
  cmap_subtable_offset := 0
  cmap_subtable_encoding := Encoding.Unicode
  gdef_cache := LazyLoad.NotLoaded
  gsub_cache := LazyLoad.NotLoaded
  gpos_cache := LazyLoad.NotLoaded
  outline_format := OutlineFormat.None
  embedded_images := LazyLoad.NotLoaded

/-- The face the factory builds over blankProvider with the out-of-range
cmap subtable offset chosen by badOffsetCollab. -/
def fdBad : FontDataImpl :=
  { fd0 with font_table_provider := blankProvider, cmap_subtable_offset := 100 }

/-- A concrete face over blankProvider. -/
def fdBlank : FontDataImpl :=
  { fd0 with font_table_provider := blankProvider }

/-- A concrete face over presentProvider. -/
def fdPresent : FontDataImpl :=
  { fd0 with font_table_provider := presentProvider }

/-- One sbix strike holding one real record (for glyph 1) and dupe
records: glyph 2 aliases glyph 1, and glyph 3 aliases glyph 4, which is
itself a dupe record. -/
def demo_strike : SbixStrike where
  ppem := 100
  read_glyph := fun g =>
    if g = 1 then
      Except.ok (some { graphic_type := 0x706E6720, data := [9, 9, 9] })
    else if g = 2 then
      Except.ok (some { graphic_type := tag.DUPE, data := [0, 1] })
    else if g = 3 then
      Except.ok (some { graphic_type := tag.DUPE, data := [0, 4] })
    else if g = 4 then
      Except.ok (some { graphic_type := tag.DUPE, data := [0, 1] })
    else
      Except.ok none

/-- An sbix table that resolves every size query to demo_strike. -/
def demo_sbix : SbixTable where
  find_strike := fun _ _ _ => some demo_strike

/-- Helper: after a successful get_or_load the cache replays the same
value and state for any later closure, without consulting it. -/
theorem get_or_load_ok_replay {T : Type} {s s2 : LazyLoad T}
    {f : Unit → Except ParseError (Option T)} {v : Option T}
    (h : s.get_or_load f = (Except.ok v, s2)) :
    ∀ g : Unit → Except ParseError (Option T),
      s2.get_or_load g = (Except.ok v, s2) := by
  intro g
  cases s with
  | Loaded w =>
    cases w with
    | some d =>
      simp only [LazyLoad.get_or_load, Prod.mk.injEq, Except.ok.injEq] at h
      obtain ⟨h1, h2⟩ := h
      subst h1
      subst h2
      rfl
    | none =>
      simp only [LazyLoad.get_or_load, Prod.mk.injEq, Except.ok.injEq] at h
      obtain ⟨h1, h2⟩ := h
      subst h1
      subst h2
      rfl
  | NotLoaded =>
    simp only [LazyLoad.get_or_load] at h
    cases hf : f () with
    | error e => rw [hf] at h; simp at h
    | ok data =>
      rw [hf] at h
      simp only [Prod.mk.injEq, Except.ok.injEq] at h
      obtain ⟨h1, h2⟩ := h
      subst h1
      subst h2
      cases data with
      | some d => rfl
      | none => rfl

/-- Helper: replaying get_or_load with the same closure reproduces the
first call, whether it succeeded or failed. -/
theorem get_or_load_replay {T : Type} {s s2 : LazyLoad T}
    {f : Unit → Except ParseError (Option T)}
    {r : Except ParseError (Option T)}
    (h : s.get_or_load f = (r, s2)) :
    s2.get_or_load f = (r, s2) := by
  cases r with
  | ok v => exact get_or_load_ok_replay h f
  | error e =>
    cases s with
    | Loaded w =>
      cases w with
      | some d => simp [LazyLoad.get_or_load] at h
      | none => simp [LazyLoad.get_or_load] at h
    | NotLoaded =>
      simp only [LazyLoad.get_or_load] at h ⊢
      cases hf : f () with
      | error e2 =>
        rw [hf] at h
        simp only [Prod.mk.injEq, Except.error.injEq] at h
        obtain ⟨h1, h2⟩ := h
        subst h1
        subst h2
        rfl
      | ok data => rw [hf] at h; simp at h

/-- C4: the lazy-cache contract of get_or_load.  When the cache is
loaded the cached optional value is returned and the closure result is
irrelevant (it is not consulted); when not loaded the single evaluation
of the closure determines the result, a successful present/absent
outcome is stored, and a failure leaves the cache not-loaded, propagates
the error, and makes the next access evaluate its closure afresh. -/
theorem get_or_load_contract (T : Type) :
    (∀ (v : Option T) (f g : Unit → Except ParseError (Option T)),
        LazyLoad.get_or_load (LazyLoad.Loaded v) f
          = LazyLoad.get_or_load (LazyLoad.Loaded v) g
      ∧ LazyLoad.get_or_load (LazyLoad.Loaded v) f
          = (Except.ok v, LazyLoad.Loaded v))
  ∧ (∀ (f : Unit → Except ParseError (Option T)) (v : Option T),
        f () = Except.ok v →
        LazyLoad.get_or_load LazyLoad.NotLoaded f
          = (Except.ok v, LazyLoad.Loaded v))
  ∧ (∀ (f : Unit → Except ParseError (Option T)) (e : ParseError),
        f () = Except.error e →
        LazyLoad.get_or_load LazyLoad.NotLoaded f
          = (Except.error e, LazyLoad.NotLoaded)
      ∧ ∀ g : Unit → Except ParseError (Option T),
          LazyLoad.get_or_load
              (LazyLoad.get_or_load LazyLoad.NotLoaded f).2 g
            = LazyLoad.get_or_load LazyLoad.NotLoaded g) := by
  refine ⟨?_, ?_, ?_⟩
  · intro v f g
    cases v with
    | some d => exact ⟨rfl, rfl⟩
    | none => exact ⟨rfl, rfl⟩
  · intro f v hf
    simp only [LazyLoad.get_or_load, hf]
  · intro f e hf
    constructor
    · simp only [LazyLoad.get_or_load, hf]
    · intro g
      simp only [LazyLoad.get_or_load, hf]

/-- Witness for the C4 contract at concrete closures over Nat. -/
theorem get_or_load_contract_witness :
    LazyLoad.get_or_load LazyLoad.NotLoaded
        (fun _ : Unit => Except.ok (some (3 : Nat)))
      = (Except.ok (some 3), LazyLoad.Loaded (some 3))
  ∧ LazyLoad.get_or_load LazyLoad.NotLoaded
        (fun _ : Unit =>
          (Except.error ParseError.BadValue : Except ParseError (Option Nat)))
      = (Except.error ParseError.BadValue, LazyLoad.NotLoaded) :=
  ⟨(get_or_load_contract Nat).2.1 _ (some 3) rfl,
   ((get_or_load_contract Nat).2.2 _ ParseError.BadValue rfl).1⟩

/-- C6: the encoding selector agrees with the priority list exactly as
the specification words it, on every cmap record list. -/
theorem find_good_cmap_subtable_eq_spec (cmap : Cmap) :
    find_good_cmap_subtable cmap = find_good_cmap_subtable_spec cmap := by
  unfold find_good_cmap_subtable find_good_cmap_subtable_spec
  simp only [spec_selector_priority, run_cmap_query, List.findSome?_cons,
    List.findSome?_nil]
  cases h1 : cmap.find_subtable PlatformId.WINDOWS
      EncodingId.WINDOWS_UNICODE_UCS4 with
  | some r => simp [h1]
  | none =>
    simp only [h1, Option.map_none']
    cases h2 : cmap.find_subtable PlatformId.WINDOWS
        EncodingId.WINDOWS_UNICODE_BMP_UCS2 with
    | some r => simp [h2]
    | none =>
      simp only [h2, Option.map_none']
      cases h3 : cmap.find_subtable PlatformId.UNICODE
          EncodingId.MACINTOSH_UNICODE_UCS4 with
      | some r => simp [h3]
      | none =>
        simp only [h3, Option.map_none']
        cases h4 : cmap.find_subtable_for_platform PlatformId.UNICODE with
        | some r => simp [h4]
        | none =>
          simp only [h4, Option.map_none']
          cases h5 : cmap.find_subtable PlatformId.WINDOWS
              EncodingId.WINDOWS_SYMBOL with
          | some r => simp [h5]
          | none =>
            simp only [h5, Option.map_none']
            cases h6 : cmap.find_subtable PlatformId.MACINTOSH
                EncodingId.MACINTOSH_APPLE_ROMAN with
            | some r => simp [h6]
            | none =>
              simp only [h6, Option.map_none']
              cases h7 : cmap.find_subtable PlatformId.WINDOWS
                  EncodingId.WINDOWS_BIG5 with
              | some r => simp [h7]
              | none => simp [h7]

/-- Helper: replaying the gdef accessor from the state it produced
reproduces its result. -/
theorem gdef_table_replay (C : Collaborators) (fd fd1 : FontDataImpl)
    (res : Except ParseError (Option GDEFTable))
    (h : gdef_table C fd = (res, fd1)) :
    gdef_table C fd1 = (res, fd1) := by
  simp only [gdef_table] at h ⊢
  rw [Prod.mk.injEq] at h
  obtain ⟨h1, h2⟩ := h
  subst h2
  dsimp only
  rw [get_or_load_replay (Prod.ext_iff.mpr ⟨h1, rfl⟩)]

/-- Helper: replaying the gsub accessor from the state it produced
reproduces its result. -/
theorem gsub_cache_replay (C : Collaborators) (fd fd1 : FontDataImpl)
    (res : Except ParseError (Option LayoutCacheGSUB))
    (h : gsub_cache C fd = (res, fd1)) :
    gsub_cache C fd1 = (res, fd1) := by
  simp only [gsub_cache] at h ⊢
  rw [Prod.mk.injEq] at h
  obtain ⟨h1, h2⟩ := h
  subst h2
  dsimp only
  rw [get_or_load_replay (Prod.ext_iff.mpr ⟨h1, rfl⟩)]

/-- Helper: replaying the gpos accessor from the state it produced
reproduces its result. -/
theorem gpos_cache_replay (C : Collaborators) (fd fd1 : FontDataImpl)
    (res : Except ParseError (Option LayoutCacheGPOS))
    (h : gpos_cache C fd = (res, fd1)) :
    gpos_cache C fd1 = (res, fd1) := by
  simp only [gpos_cache] at h ⊢
  rw [Prod.mk.injEq] at h
  obtain ⟨h1, h2⟩ := h
  subst h2
  dsimp only
  rw [get_or_load_replay (Prod.ext_iff.mpr ⟨h1, rfl⟩)]

/-- Helper: replaying the vhea accessor from the state it produced
reproduces its result. -/
theorem vhea_table_replay (C : Collaborators) (fd fd1 : FontDataImpl)
    (res : Except ParseError (Option HheaTable))
    (h : vhea_table C fd = (res, fd1)) :
    vhea_table C fd1 = (res, fd1) := by
  simp only [vhea_table] at h ⊢
  rw [Prod.mk.injEq] at h
  obtain ⟨h1, h2⟩ := h
  subst h2
  dsimp only
  rw [get_or_load_replay (Prod.ext_iff.mpr ⟨h1, rfl⟩)]

/-- Helper: replaying the embedded-image accessor from the state it
produced reproduces its result. -/
theorem embedded_images_replay (C : Collaborators) (fd fd1 : FontDataImpl)
    (res : Except ParseError (Option Images))
    (h : embedded_images C fd = (res, fd1)) :
    embedded_images C fd1 = (res, fd1) := by
  simp only [embedded_images] at h ⊢
  rw [Prod.mk.injEq] at h
  obtain ⟨h1, h2⟩ := h
  subst h2
  dsimp only
  rw [get_or_load_replay (Prod.ext_iff.mpr ⟨h1, rfl⟩)]

/-- Helper: rewriting a face with its own vmtx cache is the identity
(structure eta). -/
theorem update_vmtx_self (fd : FontDataImpl) :
    { fd with vmtx_table := fd.vmtx_table } = fd := rfl

/-- Helper: replaying vertical_advance from the state it produced
reproduces its result, whatever that result was. -/
theorem vertical_advance_replay (C : Collaborators) (fd fd1 : FontDataImpl)
    (glyph : Nat) (r : MayAbort (Option Nat))
    (h : vertical_advance C fd glyph = (r, fd1)) :
    vertical_advance C fd1 glyph = (r, fd1) := by
  simp only [vertical_advance] at h
  rcases hp : fd.vmtx_table.get_or_load
      (fun _ => read_and_box_optional_table fd.font_table_provider tag.VMTX)
    with ⟨r1, l1⟩
  rw [hp] at h
  cases r1 with
  | error e =>
    dsimp only at h
    rw [Prod.mk.injEq] at h
    obtain ⟨h1, h2⟩ := h
    subst h1
    subst h2
    simp only [vertical_advance]
    rw [get_or_load_replay hp]
  | ok vmtx =>
    dsimp only at h
    rcases hq : vhea_table C { fd with vmtx_table := l1 } with ⟨r2, fd2⟩
    rw [hq] at h
    have h2snd := congrArg Prod.snd hq
    dsimp only at h2snd
    have hvm : fd2.vmtx_table = l1 := by rw [← h2snd]; rfl
    have hupd : { fd2 with vmtx_table := l1 } = fd2 := by
      rw [← hvm]
    have hrep := get_or_load_ok_replay hp
    cases r2 with
    | error e2 =>
      dsimp only at h
      rw [Prod.mk.injEq] at h
      obtain ⟨h1, h2⟩ := h
      subst h1
      subst h2
      simp only [vertical_advance]
      rw [hvm, hrep]
      dsimp only
      rw [hupd, vhea_table_replay C _ _ _ hq]
    | ok vhea =>
      dsimp only at h
      cases vhea with
      | none =>
        cases vmtx with
        | none =>
          dsimp only at h
          rw [Prod.mk.injEq] at h
          obtain ⟨h1, h2⟩ := h
          subst h1
          subst h2
          simp only [vertical_advance]
          rw [hvm, hrep]
          dsimp only
          rw [hupd, vhea_table_replay C _ _ _ hq]
        | some vm =>
          dsimp only at h
          rw [Prod.mk.injEq] at h
          obtain ⟨h1, h2⟩ := h
          subst h1
          subst h2
          simp only [vertical_advance]
          rw [hvm, hrep]
          dsimp only
          rw [hupd, vhea_table_replay C _ _ _ hq]
      | some vh =>
        cases vmtx with
        | none =>
          dsimp only at h
          rw [Prod.mk.injEq] at h
          obtain ⟨h1, h2⟩ := h
          subst h1
          subst h2
          simp only [vertical_advance]
          rw [hvm, hrep]
          dsimp only
          rw [hupd, vhea_table_replay C _ _ _ hq]
        | some vm =>
          dsimp only at h
          cases hadv : C.advance fd2.maxp_table vh vm glyph with
          | ok a =>
            rw [hadv] at h
            dsimp only at h
            rw [Prod.mk.injEq] at h
            obtain ⟨h1, h2⟩ := h
            subst h1
            subst h2
            simp only [vertical_advance]
            rw [hvm, hrep]
            dsimp only
            rw [hupd, vhea_table_replay C _ _ _ hq]
            dsimp only
            rw [hadv]
          | error e3 =>
            rw [hadv] at h
            dsimp only at h
            rw [Prod.mk.injEq] at h
            obtain ⟨h1, h2⟩ := h
            subst h1
            subst h2
            simp only [vertical_advance]
            rw [hvm, hrep]
            dsimp only
            rw [hupd, vhea_table_replay C _ _ _ hq]
            dsimp only
            rw [hadv]

/-- C9: idempotence of the lazy-cache-backed accessors — after a first
call that succeeds, every later call on the resulting face returns a
value-equal result and leaves the face unchanged, for the GDEF, GSUB,
GPOS, vertical-header and embedded-image accessors and for the
vertical-metrics path through vertical_advance. -/
theorem lazy_accessors_idempotent (C : Collaborators) (fd : FontDataImpl) :
    (∀ fd1 r, gdef_table C fd = (Except.ok r, fd1) →
        gdef_table C fd1 = (Except.ok r, fd1))
  ∧ (∀ fd1 r, gsub_cache C fd = (Except.ok r, fd1) →
        gsub_cache C fd1 = (Except.ok r, fd1))
  ∧ (∀ fd1 r, gpos_cache C fd = (Except.ok r, fd1) →
        gpos_cache C fd1 = (Except.ok r, fd1))
  ∧ (∀ fd1 r, vhea_table C fd = (Except.ok r, fd1) →
        vhea_table C fd1 = (Except.ok r, fd1))
  ∧ (∀ fd1 r, embedded_images C fd = (Except.ok r, fd1) →
        embedded_images C fd1 = (Except.ok r, fd1))
  ∧ (∀ fd1 glyph r, vertical_advance C fd glyph = (MayAbort.value r, fd1) →
        vertical_advance C fd1 glyph = (MayAbort.value r, fd1)) :=
  ⟨fun fd1 r h => gdef_table_replay C fd fd1 _ h,
   fun fd1 r h => gsub_cache_replay C fd fd1 _ h,
   fun fd1 r h => gpos_cache_replay C fd fd1 _ h,
   fun fd1 r h => vhea_table_replay C fd fd1 _ h,
   fun fd1 r h => embedded_images_replay C fd fd1 _ h,
   fun fd1 glyph r h => vertical_advance_replay C fd fd1 glyph _ h⟩

/-- Witness for C9 at concrete faces: a second call to each accessor on
the state produced by a successful first call repeats its result. -/
theorem lazy_accessors_idempotent_witness :
    gdef_table noCollab { fd0 with gdef_cache := LazyLoad.Loaded none }
      = (Except.ok none, { fd0 with gdef_cache := LazyLoad.Loaded none })
  ∧ gsub_cache noCollab { fd0 with gsub_cache := LazyLoad.Loaded none }
      = (Except.ok none, { fd0 with gsub_cache := LazyLoad.Loaded none })
  ∧ gpos_cache noCollab { fd0 with gpos_cache := LazyLoad.Loaded none }
      = (Except.ok none, { fd0 with gpos_cache := LazyLoad.Loaded none })
  ∧ vhea_table vertCollab
        { fdPresent with
          vhea_table := LazyLoad.Loaded (some { num_h_metrics := 1 }) }
      = (Except.ok (some { num_h_metrics := 1 }),
         { fdPresent with
           vhea_table := LazyLoad.Loaded (some { num_h_metrics := 1 }) })
  ∧ embedded_images cbCollab
        { fdBlank with embedded_images :=
            LazyLoad.Loaded (some (Images.Embedded { data := [] } { data := [] })) }
      = (Except.ok (some (Images.Embedded { data := [] } { data := [] })),
         { fdBlank with embedded_images :=
             LazyLoad.Loaded (some (Images.Embedded { data := [] } { data := [] })) })
  ∧ vertical_advance advCollab
        { fdPresent with
          vmtx_table := LazyLoad.Loaded (some []),
          vhea_table := LazyLoad.Loaded (some { num_h_metrics := 1 }) } 0
      = (MayAbort.value (some 42),
         { fdPresent with
           vmtx_table := LazyLoad.Loaded (some []),
           vhea_table := LazyLoad.Loaded (some { num_h_metrics := 1 }) }) :=
  ⟨(lazy_accessors_idempotent noCollab fd0).1 _ none rfl,
   (lazy_accessors_idempotent noCollab fd0).2.1 _ none rfl,
   (lazy_accessors_idempotent noCollab fd0).2.2.1 _ none rfl,
   (lazy_accessors_idempotent vertCollab fdPresent).2.2.2.1 _
     (some { num_h_metrics := 1 }) rfl,
   (lazy_accessors_idempotent cbCollab fdBlank).2.2.2.2.1 _
     (some (Images.Embedded { data := [] } { data := [] })) rfl,
   (lazy_accessors_idempotent advCollab fdPresent).2.2.2.2.2 _ 0
     (some 42) rfl⟩

/-- C3 (amended): on first access the resolver tries CBLC/CBDT first
and resolves through it whenever that load succeeds, never via sbix;
only when it fails is sbix tried; when the sbix attempt also fails the
error propagates to the caller (the result is an error, not the
"no embedded images" outcome), the cache stays not-loaded, and
supports_emoji reports false. -/
theorem embedded_images_resolution (C : Collaborators) (fd : FontDataImpl)
    (hcache : fd.embedded_images = LazyLoad.NotLoaded) :
    (∀ cblc cbdt,
        load_cblc_cbdt C fd.font_table_provider = Except.ok (cblc, cbdt) →
        embedded_images C fd
          = (Except.ok (some (Images.Embedded cblc cbdt)),
             { fd with embedded_images :=
                 LazyLoad.Loaded (some (Images.Embedded cblc cbdt)) }))
  ∧ (∀ e sb, load_cblc_cbdt C fd.font_table_provider = Except.error e →
        load_sbix C fd.font_table_provider fd.maxp_table.num_glyphs
          = Except.ok sb →
        embedded_images C fd
          = (Except.ok (some (Images.Sbix sb)),
             { fd with embedded_images :=
                 LazyLoad.Loaded (some (Images.Sbix sb)) }))
  ∧ (∀ e e2, load_cblc_cbdt C fd.font_table_provider = Except.error e →
        load_sbix C fd.font_table_provider fd.maxp_table.num_glyphs
          = Except.error e2 →
        embedded_images C fd = (Except.error e2, fd)
      ∧ (supports_emoji C fd).1 = false) := by
  refine ⟨?_, ?_, ?_⟩
  · intro cblc cbdt h
    simp only [embedded_images, hcache, LazyLoad.get_or_load, h, Except.map]
  · intro e sb h hs
    simp only [embedded_images, hcache, LazyLoad.get_or_load, h, hs,
      Except.map]
  · intro e e2 h hs
    have hemb : embedded_images C fd = (Except.error e2, fd) := by
      simp only [embedded_images, hcache, LazyLoad.get_or_load, h, hs,
        Except.map]
      rw [Prod.mk.injEq]
      refine ⟨rfl, ?_⟩
      rw [← hcache]
    exact ⟨hemb, by simp only [supports_emoji, hemb]⟩

/-- Witness for C3 at concrete providers: a successful CBLC/CBDT load
wins, sbix is used only as the fallback, and a double failure surfaces
the sbix error. -/
theorem embedded_images_resolution_witness :
    embedded_images cbCollab fdBlank
      = (Except.ok (some (Images.Embedded ⟨[]⟩ ⟨[]⟩)),
         { fdBlank with embedded_images :=
             LazyLoad.Loaded (some (Images.Embedded ⟨[]⟩ ⟨[]⟩)) })
  ∧ embedded_images sbCollab fdBlank
      = (Except.ok (some (Images.Sbix noStrikeSbix)),
         { fdBlank with embedded_images :=
             LazyLoad.Loaded (some (Images.Sbix noStrikeSbix)) })
  ∧ embedded_images noCollab fdBlank
      = (Except.error ParseError.BadValue, fdBlank)
  ∧ (supports_emoji noCollab fdBlank).1 = false :=
  ⟨(embedded_images_resolution cbCollab fdBlank rfl).1 _ _ rfl,
   (embedded_images_resolution sbCollab fdBlank rfl).2.1
     ParseError.BadValue _ rfl rfl,
   ((embedded_images_resolution noCollab fdBlank rfl).2.2
     ParseError.BadValue ParseError.BadValue rfl rfl).1,
   ((embedded_images_resolution noCollab fdBlank rfl).2.2
     ParseError.BadValue ParseError.BadValue rfl rfl).2⟩

/-- C3 counterexample: with both bitmap loads failing, the first access
yields an error, not the "no embedded images" (ok-none) outcome the
claim describes. -/
theorem embedded_images_error_counterexample :
    (embedded_images noCollab fdBlank).1 = Except.error ParseError.BadValue
  ∧ (embedded_images noCollab fdBlank).1 ≠ Except.ok none := by
  constructor
  · rfl
  · intro hcontra
    rw [show (embedded_images noCollab fdBlank).1
        = Except.error ParseError.BadValue from rfl] at hcontra
    cases hcontra

/-- C7: with the stored slice in bounds, lookup_glyph_index always
returns a plain glyph index, never an error: a subtable parse failure, a
mapping failure and an unmapped character each yield 0, and a mapped
character yields its glyph index. -/
theorem lookup_glyph_index_total (C : Collaborators) (fd : FontDataImpl)
    (char_code : Nat) (data : List Nat)
    (hdata : cmap_subtable_data fd = MayAbort.value data) :
    (∃ g, lookup_glyph_index C fd char_code = MayAbort.value g)
  ∧ (∀ e, C.parse_cmap_subtable data = Except.error e →
      lookup_glyph_index C fd char_code = MayAbort.value 0)
  ∧ (∀ st, C.parse_cmap_subtable data = Except.ok st →
      (∀ e, st.map_glyph char_code = Except.error e →
          lookup_glyph_index C fd char_code = MayAbort.value 0)
      ∧ (st.map_glyph char_code = Except.ok none →
          lookup_glyph_index C fd char_code = MayAbort.value 0)
      ∧ (∀ g, st.map_glyph char_code = Except.ok (some g) →
          lookup_glyph_index C fd char_code = MayAbort.value g)) := by
  have hbase : lookup_glyph_index C fd char_code
      = (match C.parse_cmap_subtable data with
         | .ok st =>
           match st.map_glyph char_code with
           | .ok (some g) => MayAbort.value g
           | _ => MayAbort.value 0
         | .error _ => MayAbort.value 0) := by
    simp only [lookup_glyph_index, hdata]
  refine ⟨?_, ?_, ?_⟩
  · rw [hbase]
    cases hc : C.parse_cmap_subtable data with
    | error e => exact ⟨0, rfl⟩
    | ok st =>
      dsimp only
      cases hm : st.map_glyph char_code with
      | error e => exact ⟨0, rfl⟩
      | ok o =>
        cases o with
        | none => exact ⟨0, rfl⟩
        | some g => exact ⟨g, rfl⟩
  · intro e hc
    rw [hbase, hc]
  · intro st hc
    refine ⟨?_, ?_, ?_⟩
    · intro e hm
      rw [hbase, hc]
      dsimp only
      rw [hm]
    · intro hm
      rw [hbase, hc]
      dsimp only
      rw [hm]
    · intro g hm
      rw [hbase, hc]
      dsimp only
      rw [hm]

/-- Witness for C7: an unmapped character yields 0, a mapped one yields
its glyph, on a concrete well-formed subtable. -/
theorem lookup_glyph_index_total_witness :
    lookup_glyph_index stCollab fd0 66 = MayAbort.value 0
  ∧ lookup_glyph_index stCollab fd0 65 = MayAbort.value 7 :=
  ⟨((lookup_glyph_index_total stCollab fd0 66 [] rfl).2.2 _ rfl).2.1 rfl,
   ((lookup_glyph_index_total stCollab fd0 65 [] rfl).2.2 _ rfl).2.2 7 rfl⟩

/-- C8 (amended): horizontal_advance mirrors the optional result of the
advance computation and never errors or aborts; vertical_advance yields
"no value" when the vmtx load fails, when the vhea accessor fails, or
when either table is absent — but when both tables are present it
unwraps the per-glyph advance computation, returning its value on
success and aborting (rather than yielding "no value") on failure. -/
theorem advance_accessors (C : Collaborators) (fd : FontDataImpl)
    (glyph : Nat) :
    (∀ e, C.advance fd.maxp_table fd.hhea_table fd.hmtx_table glyph
          = Except.error e →
        horizontal_advance C fd glyph = none)
  ∧ (∀ a, C.advance fd.maxp_table fd.hhea_table fd.hmtx_table glyph
          = Except.ok a →
        horizontal_advance C fd glyph = some a)
  ∧ (∀ e l1, fd.vmtx_table.get_or_load
          (fun _ => read_and_box_optional_table fd.font_table_provider
            tag.VMTX)
          = (Except.error e, l1) →
        (vertical_advance C fd glyph).1 = MayAbort.value none)
  ∧ (∀ vmtx l1, fd.vmtx_table.get_or_load
        (fun _ => read_and_box_optional_table fd.font_table_provider
          tag.VMTX)
        = (Except.ok vmtx, l1) →
      (∀ e fd2, vhea_table C { fd with vmtx_table := l1 }
            = (Except.error e, fd2) →
          (vertical_advance C fd glyph).1 = MayAbort.value none)
      ∧ (∀ vhea fd2, vhea_table C { fd with vmtx_table := l1 }
            = (Except.ok vhea, fd2) →
          ((vhea = none ∨ vmtx = none) →
              (vertical_advance C fd glyph).1 = MayAbort.value none)
          ∧ (∀ vh vm, vhea = some vh → vmtx = some vm →
              (∀ a, C.advance fd2.maxp_table vh vm glyph = Except.ok a →
                  (vertical_advance C fd glyph).1
                    = MayAbort.value (some a))
              ∧ (∀ e, C.advance fd2.maxp_table vh vm glyph
                    = Except.error e →
                  (vertical_advance C fd glyph).1 = MayAbort.aborts)))) := by
  refine ⟨?_, ?_, ?_, ?_⟩
  · intro e h
    simp only [horizontal_advance, h, Except.toOption]
  · intro a h
    simp only [horizontal_advance, h, Except.toOption]
  · intro e l1 hp
    simp only [vertical_advance, hp]
  · intro vmtx l1 hp
    constructor
    · intro e fd2 hq
      simp only [vertical_advance, hp, hq]
    · intro vhea fd2 hq
      constructor
      · intro habs
        cases habs with
        | inl hv =>
          subst hv
          simp only [vertical_advance, hp, hq]
        | inr hv =>
          subst hv
          simp only [vertical_advance, hp, hq]
      · intro vh vm hvh hvm
        subst hvh
        subst hvm
        constructor
        · intro a hadv
          simp only [vertical_advance, hp, hq, hadv]
        · intro e hadv
          simp only [vertical_advance, hp, hq, hadv]

/-- Witness for C8 at concrete faces: both advance paths succeed, fail
to "no value", as the amended claim describes. -/
theorem advance_accessors_witness :
    horizontal_advance advCollab fd0 5 = some 42
  ∧ horizontal_advance noCollab fd0 5 = none
  ∧ (vertical_advance advCollab fdPresent 0).1 = MayAbort.value (some 42)
  ∧ (vertical_advance noCollab fd0 0).1 = MayAbort.value none :=
  ⟨(advance_accessors advCollab fd0 5).2.1 42 rfl,
   (advance_accessors noCollab fd0 5).1 ParseError.BadValue rfl,
   ((((advance_accessors advCollab fdPresent 0).2.2.2 (some [])
       (LazyLoad.Loaded (some [])) rfl).2 (some { num_h_metrics := 1 }) _
       rfl).2 { num_h_metrics := 1 } [] rfl rfl).1 42 rfl,
   (((advance_accessors noCollab fd0 0).2.2.2 none
       (LazyLoad.Loaded none) rfl).2 none _ rfl).1 (Or.inl rfl)⟩

/-- C8 counterexample: with both vertical tables present and a failing
per-glyph advance computation, vertical_advance aborts — refuting the
claim that the advance accessors never abort. -/
theorem vertical_advance_aborts_counterexample :
    (vertical_advance vertCollab fdPresent 0).1 = MayAbort.aborts := rfl

/-- C1 (amended): construction validates only the numeric conversion of
the chosen subtable offset — it stores the offset of the record the
encoding selector picked without comparing it to the cmap buffer
length — and cmap_subtable_data slices in bounds, returning the suffix
at the stored offset, exactly when that offset is at most the buffer
length; when the offset exceeds the length the slice aborts. -/
theorem cmap_offset_construction (C : Collaborators)
    (provider : FontTableProvider) (fd : FontDataImpl)
    (h : new C provider = Except.ok (some fd)) :
    (∃ cmap p, C.parse_cmap fd.cmap_table = Except.ok cmap
        ∧ find_good_cmap_subtable cmap = some p
        ∧ fd.cmap_subtable_offset = p.2.offset)
  ∧ (fd.cmap_subtable_offset ≤ fd.cmap_table.length →
      cmap_subtable_data fd
        = MayAbort.value (fd.cmap_table.drop fd.cmap_subtable_offset))
  ∧ (fd.cmap_table.length < fd.cmap_subtable_offset →
      cmap_subtable_data fd = MayAbort.aborts) := by
  refine ⟨?_, ?_, ?_⟩
  · simp only [new, read_and_box_table, charmap_info, usize_try_from] at h
    cases h1 : provider.read_table_data tag.CMAP with
    | error e => simp [h1] at h
    | ok cmap_table =>
      rw [h1] at h
      dsimp only at h
      cases h2 : C.parse_cmap cmap_table with
      | error e => simp [h2] at h
      | ok cmap =>
        rw [h2] at h
        dsimp only at h
        cases h3 : find_good_cmap_subtable cmap with
        | none => simp [h3] at h
        | some p =>
          rw [h3] at h
          simp only [Option.map_some'] at h
          cases h4 : provider.read_table_data tag.MAXP with
          | error e => simp [h4] at h
          | ok maxp_data =>
            rw [h4] at h
            dsimp only at h
            cases h5 : C.parse_maxp maxp_data with
            | error e => simp [h5] at h
            | ok maxp =>
              rw [h5] at h
              dsimp only at h
              cases h6 : provider.read_table_data tag.HMTX with
              | error e => simp [h6] at h
              | ok hmtx =>
                rw [h6] at h
                dsimp only at h
                cases h7 : provider.read_table_data tag.HHEA with
                | error e => simp [h7] at h
                | ok hhea_data =>
                  rw [h7] at h
                  dsimp only at h
                  cases h8 : C.parse_hhea hhea_data with
                  | error e => simp [h8] at h
                  | ok hhea =>
                    rw [h8] at h
                    dsimp only at h
                    rw [Except.ok.injEq, Option.some.injEq] at h
                    refine ⟨cmap, p, ?_, h3, ?_⟩
                    · rw [← h]
                      exact h2
                    · rw [← h]
  · intro hle
    simp only [cmap_subtable_data, if_pos hle]
  · intro hlt
    simp only [cmap_subtable_data]
    rw [if_neg (Nat.not_le_of_lt hlt)]

/-- Witness for C1: the factory accepts the out-of-range offset 100
over an empty cmap table, whose slice then aborts, while the offset-0
face slices in bounds. -/
theorem cmap_offset_construction_witness :
    (∃ cmap p, badOffsetCollab.parse_cmap fdBad.cmap_table = Except.ok cmap
        ∧ find_good_cmap_subtable cmap = some p
        ∧ fdBad.cmap_subtable_offset = p.2.offset)
  ∧ cmap_subtable_data fdBad = MayAbort.aborts
  ∧ cmap_subtable_data fdBlank = MayAbort.value [] :=
  ⟨(cmap_offset_construction badOffsetCollab blankProvider fdBad rfl).1,
   (cmap_offset_construction badOffsetCollab blankProvider fdBad rfl).2.2
     (by decide),
   (cmap_offset_construction goodOffsetCollab blankProvider fdBlank rfl).2.1
     (by decide)⟩

/-- C1 counterexample: a successfully constructed face whose stored
cmap subtable offset (100) exceeds the stored cmap byte length (0), so
the invariant the claim asserts does not hold and the slice aborts. -/
theorem construction_accepts_oversized_offset :
    (new badOffsetCollab blankProvider).map
        (Option.map (fun fd =>
          (fd.cmap_subtable_offset, fd.cmap_table.length,
           cmap_subtable_data fd)))
      = Except.ok (some (100, 0, MayAbort.aborts)) := rfl

/-- C5: a dupe record resolves by reading the 16-bit big-endian target
glyph from the payload and continuing with that glyph inside a dupe
lookup: when the target re-resolves to a non-dupe record the outcome
equals looking the target up directly with the same size and depth
arguments, and when the target re-resolves to another dupe record the
lookup yields "no image" instead of recursing further. -/
theorem sbix_dupe_resolution (sbix : SbixTable) (g target_ppem : Nat)
    (d : BitDepth) (strike : SbixStrike) (glyph : SbixGlyph) (g2 : Nat)
    (h1 : sbix.find_strike g target_ppem d = some strike)
    (h2 : strike.read_glyph g = Except.ok (some glyph))
    (h3 : glyph.graphic_type = tag.DUPE)
    (h4 : read_u16be glyph.data = Except.ok g2) :
    lookup_sbix_glyph_bitmap sbix false g target_ppem d
      = lookup_sbix_glyph_bitmap sbix true g2 target_ppem d
  ∧ ((∀ strike2 glyph2, sbix.find_strike g2 target_ppem d = some strike2 →
        strike2.read_glyph g2 = Except.ok (some glyph2) →
        glyph2.graphic_type ≠ tag.DUPE) →
      lookup_sbix_glyph_bitmap sbix false g target_ppem d
        = lookup_sbix_glyph_bitmap sbix false g2 target_ppem d)
  ∧ (∀ strike2 glyph2, sbix.find_strike g2 target_ppem d = some strike2 →
      strike2.read_glyph g2 = Except.ok (some glyph2) →
      glyph2.graphic_type = tag.DUPE →
      lookup_sbix_glyph_bitmap sbix false g target_ppem d
        = Except.ok none) := by
  have e1 : lookup_sbix_glyph_bitmap sbix false g target_ppem d
      = lookup_sbix_glyph_bitmap sbix true g2 target_ppem d := by
    conv_lhs => rw [lookup_sbix_glyph_bitmap.eq_def]
    rw [h1]
    dsimp only
    rw [h2]
    dsimp only
    rw [if_pos h3]
    rw [dif_neg (by simp)]
    rw [h4]
  refine ⟨e1, ?_, ?_⟩
  · intro hnd
    have key : lookup_sbix_glyph_bitmap sbix true g2 target_ppem d
        = lookup_sbix_glyph_bitmap sbix false g2 target_ppem d := by
      conv_lhs => rw [lookup_sbix_glyph_bitmap.eq_def]
      conv_rhs => rw [lookup_sbix_glyph_bitmap.eq_def]
      cases hs : sbix.find_strike g2 target_ppem d with
      | none => rfl
      | some strike2 =>
        dsimp only
        cases hr : strike2.read_glyph g2 with
        | error e => rfl
        | ok o =>
          cases o with
          | none => rfl
          | some glyph2 =>
            dsimp only
            rw [if_neg (hnd strike2 glyph2 hs hr),
              if_neg (hnd strike2 glyph2 hs hr)]
    exact e1.trans key
  · intro strike2 glyph2 hs hr hdup
    rw [e1]
    conv_lhs => rw [lookup_sbix_glyph_bitmap.eq_def]
    rw [hs]
    dsimp only
    rw [hr]
    dsimp only
    rw [if_pos hdup]
    rw [dif_pos rfl]

/-- Witness for C5 on a concrete sbix table with a real record, a dupe
of it, and a dupe chain: the single-hop dupe resolves to the target
image, and the dupe-of-a-dupe resolves to "no image". -/
theorem sbix_dupe_resolution_witness :
    lookup_sbix_glyph_bitmap demo_sbix false 2 100 BitDepth.ThirtyTwo
      = lookup_sbix_glyph_bitmap demo_sbix false 1 100 BitDepth.ThirtyTwo
  ∧ lookup_sbix_glyph_bitmap demo_sbix false 1 100 BitDepth.ThirtyTwo
      = Except.ok (some { ppem := 100, data := [9, 9, 9] })
  ∧ lookup_sbix_glyph_bitmap demo_sbix false 3 100 BitDepth.ThirtyTwo
      = Except.ok none := by
  have hd : ∀ strike2 glyph2,
      demo_sbix.find_strike 1 100 BitDepth.ThirtyTwo = some strike2 →
      strike2.read_glyph 1 = Except.ok (some glyph2) →
      glyph2.graphic_type ≠ tag.DUPE := by
    intro strike2 glyph2 hs hr
    rw [show demo_sbix.find_strike 1 100 BitDepth.ThirtyTwo
        = some demo_strike from rfl] at hs
    rw [Option.some.injEq] at hs
    subst hs
    rw [show demo_strike.read_glyph 1 = Except.ok (some
        { graphic_type := 0x706E6720, data := [9, 9, 9] }) from rfl] at hr
    rw [Except.ok.injEq, Option.some.injEq] at hr
    subst hr
    decide
  refine ⟨?_, ?_, ?_⟩
  · exact (sbix_dupe_resolution demo_sbix 2 100 BitDepth.ThirtyTwo
      demo_strike { graphic_type := tag.DUPE, data := [0, 1] } 1
      rfl rfl rfl rfl).2.1 hd
  · conv_lhs => rw [lookup_sbix_glyph_bitmap.eq_def]
    rfl
  · exact (sbix_dupe_resolution demo_sbix 3 100 BitDepth.ThirtyTwo
      demo_strike { graphic_type := tag.DUPE, data := [0, 4] } 4
      rfl rfl rfl rfl).2.2 demo_strike
      { graphic_type := tag.DUPE, data := [0, 1] } rfl rfl rfl

/-- Helper: the de-duplication loop preserves the number of names. -/
theorem unique_glyph_names_go_length (seen : String → Nat)
    (names : List String) :
    (unique_glyph_names_go seen names).length = names.length := by
  induction names generalizing seen with
  | nil => rfl
  | cons n rest ih =>
    simp only [unique_glyph_names_go, List.length_cons, ih]

/-- Helper: the name at position i produced by the loop is the input
name there, suffixed when the initial counter plus the number of its
earlier occurrences is positive. -/
theorem unique_glyph_names_go_get (seen : String → Nat)
    (names : List String) (i : Nat) (hi : i < names.length)
    (hi2 : i < (unique_glyph_names_go seen names).length) :
    (unique_glyph_names_go seen names).get ⟨i, hi2⟩
      = (if seen (names.get ⟨i, hi⟩)
            + List.count (names.get ⟨i, hi⟩) (names.take i) = 0
         then names.get ⟨i, hi⟩
         else alt_name (names.get ⟨i, hi⟩)
           (seen (names.get ⟨i, hi⟩)
             + List.count (names.get ⟨i, hi⟩) (names.take i))) := by
  induction names generalizing seen i with
  | nil => exact absurd hi (Nat.not_lt_zero i)
  | cons n rest ih =>
    cases i with
    | zero =>
      simp only [unique_glyph_names_go, List.get, List.take_zero,
        List.count_nil, Nat.add_zero]
    | succ j =>
      have hj : j < rest.length := Nat.lt_of_succ_lt_succ hi
      have hj2 : j < (unique_glyph_names_go
          (fun m => if m = n then seen n + 1 else seen m) rest).length := by
        rw [unique_glyph_names_go_length]
        exact hj
      simp only [unique_glyph_names_go, List.get_cons_succ]
      rw [ih (fun m => if m = n then seen n + 1 else seen m) j hj hj2]
      simp only [List.take_succ_cons, List.count_cons]
      have hcount : (if rest.get ⟨j, hj⟩ = n then seen n + 1
            else seen (rest.get ⟨j, hj⟩))
          + List.count (rest.get ⟨j, hj⟩) (rest.take j)
          = seen (rest.get ⟨j, hj⟩)
            + (List.count (rest.get ⟨j, hj⟩) (rest.take j)
              + if n == rest.get ⟨j, hj⟩ then 1 else 0) := by
        by_cases hxn : rest.get ⟨j, hj⟩ = n
        · simp only [hxn, if_pos rfl, beq_self_eq_true, if_true]
          omega
        · have hne : (n == rest.get ⟨j, hj⟩) = false :=
            beq_eq_false_iff_ne.mpr (Ne.symm hxn)
          rw [if_neg hxn, hne]
          simp
      rw [hcount]

/-- Helper: unique_glyph_names preserves the number of names. -/
theorem unique_glyph_names_length (names : List String) (capacity : Nat) :
    (unique_glyph_names names capacity).length = names.length :=
  unique_glyph_names_go_length _ names

/-- Helper: the name unique_glyph_names produces at position i is the
input name there when it has no earlier occurrence, and otherwise that
name suffixed with its number of earlier occurrences. -/
theorem unique_glyph_names_get (names : List String) (capacity : Nat)
    (i : Nat) (hi : i < names.length)
    (hi2 : i < (unique_glyph_names names capacity).length) :
    (unique_glyph_names names capacity).get ⟨i, hi2⟩
      = (if List.count (names.get ⟨i, hi⟩) (names.take i) = 0
         then names.get ⟨i, hi⟩
         else alt_name (names.get ⟨i, hi⟩)
           (List.count (names.get ⟨i, hi⟩) (names.take i))) := by
  have hg := unique_glyph_names_go_get (fun _ => 0) names i hi hi2
  simpa using hg

/-- Helper: strictly more occurrences of the name at position i have
been seen by a later position j. -/
theorem count_take_lt (names : List String) (i j : Nat) (hij : i < j)
    (hi : i < names.length) :
    List.count (names.get ⟨i, hi⟩) (names.take i)
      < List.count (names.get ⟨i, hi⟩) (names.take j) := by
  have hstep : List.count (names.get ⟨i, hi⟩) (names.take (i + 1))
      = List.count (names.get ⟨i, hi⟩) (names.take i) + 1 := by
    rw [List.take_succ, List.getElem?_eq_getElem hi, List.count_append]
    simp [List.get_eq_getElem]
  have hmono : List.count (names.get ⟨i, hi⟩) (names.take (i + 1))
      ≤ List.count (names.get ⟨i, hi⟩) (names.take j) :=
    (List.take_sublist_take_left names (Nat.succ_le_of_lt hij)).count_le _
  omega

/-- Helper: distinctness of two output positions of unique_glyph_names,
assuming generated alternative names collide neither with each other
(for distinct bases or counters) nor with any input name. -/
theorem unique_names_distinct_aux (names : List String) (capacity : Nat)
    (H1 : ∀ n ∈ names, ∀ m ∈ names, ∀ k, k ≤ names.length →
        ∀ l, l ≤ names.length → 0 < k → 0 < l →
        alt_name n k = alt_name m l → n = m ∧ k = l)
    (H2 : ∀ n ∈ names, ∀ m ∈ names, ∀ k, k ≤ names.length → 0 < k →
        alt_name n k ≠ m)
    (i j : Nat) (hij : i < j) (hj : j < names.length)
    (hi2 : i < (unique_glyph_names names capacity).length)
    (hj2 : j < (unique_glyph_names names capacity).length) :
    (unique_glyph_names names capacity).get ⟨i, hi2⟩
      ≠ (unique_glyph_names names capacity).get ⟨j, hj2⟩ := by
  have hi : i < names.length := Nat.lt_trans hij hj
  have hx_mem : names.get ⟨i, hi⟩ ∈ names := List.get_mem names i hi
  have hy_mem : names.get ⟨j, hj⟩ ∈ names := List.get_mem names j hj
  have hki_le : List.count (names.get ⟨i, hi⟩) (names.take i)
      ≤ names.length := by
    calc List.count (names.get ⟨i, hi⟩) (names.take i)
        ≤ (names.take i).length := List.count_le_length _ _
      _ ≤ names.length := by
          rw [List.length_take]
          exact Nat.min_le_right i names.length
  have hkj_le : List.count (names.get ⟨j, hj⟩) (names.take j)
      ≤ names.length := by
    calc List.count (names.get ⟨j, hj⟩) (names.take j)
        ≤ (names.take j).length := List.count_le_length _ _
      _ ≤ names.length := by
          rw [List.length_take]
          exact Nat.min_le_right j names.length
  rw [unique_glyph_names_get names capacity i hi hi2,
    unique_glyph_names_get names capacity j hj hj2]
  by_cases hxy : names.get ⟨i, hi⟩ = names.get ⟨j, hj⟩
  · have hlt : List.count (names.get ⟨i, hi⟩) (names.take i)
        < List.count (names.get ⟨j, hj⟩) (names.take j) := by
      rw [← hxy]
      exact count_take_lt names i j hij hi
    have hkjpos : 0 < List.count (names.get ⟨j, hj⟩) (names.take j) :=
      Nat.lt_of_le_of_lt (Nat.zero_le _) hlt
    rw [if_neg (Nat.pos_iff_ne_zero.mp hkjpos)]
    by_cases hki : List.count (names.get ⟨i, hi⟩) (names.take i) = 0
    · rw [if_pos hki]
      intro hcontra
      exact H2 (names.get ⟨j, hj⟩) hy_mem (names.get ⟨i, hi⟩) hx_mem
        (List.count (names.get ⟨j, hj⟩) (names.take j)) hkj_le hkjpos
        hcontra.symm
    · rw [if_neg hki]
      intro hcontra
      obtain ⟨-, hkeq⟩ := H1 (names.get ⟨i, hi⟩) hx_mem
        (names.get ⟨j, hj⟩) hy_mem
        (List.count (names.get ⟨i, hi⟩) (names.take i)) hki_le
        (List.count (names.get ⟨j, hj⟩) (names.take j)) hkj_le
        (Nat.pos_of_ne_zero hki) hkjpos hcontra
      omega
  · by_cases hki : List.count (names.get ⟨i, hi⟩) (names.take i) = 0
    · rw [if_pos hki]
      by_cases hkj : List.count (names.get ⟨j, hj⟩) (names.take j) = 0
      · rw [if_pos hkj]
        exact hxy
      · rw [if_neg hkj]
        intro hcontra
        exact H2 (names.get ⟨j, hj⟩) hy_mem (names.get ⟨i, hi⟩) hx_mem
          (List.count (names.get ⟨j, hj⟩) (names.take j)) hkj_le
          (Nat.pos_of_ne_zero hkj) hcontra.symm
    · rw [if_neg hki]
      by_cases hkj : List.count (names.get ⟨j, hj⟩) (names.take j) = 0
      · rw [if_pos hkj]
        exact H2 (names.get ⟨i, hi⟩) hx_mem (names.get ⟨j, hj⟩) hy_mem
          (List.count (names.get ⟨i, hi⟩) (names.take i)) hki_le
          (Nat.pos_of_ne_zero hki)
      · rw [if_neg hkj]
        intro hcontra
        obtain ⟨hbase, -⟩ := H1 (names.get ⟨i, hi⟩) hx_mem
          (names.get ⟨j, hj⟩) hy_mem
          (List.count (names.get ⟨i, hi⟩) (names.take i)) hki_le
          (List.count (names.get ⟨j, hj⟩) (names.take j)) hkj_le
          (Nat.pos_of_ne_zero hki) (Nat.pos_of_ne_zero hkj) hcontra
        exact hxy hbase

/-- C2 (amended): unique_glyph_names keeps the input length and order,
outputs the first occurrence of a name unsuffixed and the k-th duplicate
as the original name suffixed with ".alt" and k zero-padded to two
digits; the outputs are pairwise distinct provided the generated
alternative names neither collide among themselves for distinct bases or
counters nor equal any input name — without that proviso distinctness
can fail. -/
theorem unique_glyph_names_spec (names : List String) (capacity : Nat) :
    (unique_glyph_names names capacity).length = names.length
  ∧ (∀ i (hi : i < names.length)
        (hi2 : i < (unique_glyph_names names capacity).length),
      (unique_glyph_names names capacity).get ⟨i, hi2⟩
        = if List.count (names.get ⟨i, hi⟩) (names.take i) = 0
          then names.get ⟨i, hi⟩
          else alt_name (names.get ⟨i, hi⟩)
            (List.count (names.get ⟨i, hi⟩) (names.take i)))
  ∧ ((∀ n ∈ names, ∀ m ∈ names, ∀ k, k ≤ names.length →
        ∀ l, l ≤ names.length → 0 < k → 0 < l →
        alt_name n k = alt_name m l → n = m ∧ k = l) →
      (∀ n ∈ names, ∀ m ∈ names, ∀ k, k ≤ names.length → 0 < k →
        alt_name n k ≠ m) →
      ∀ i j (hi2 : i < (unique_glyph_names names capacity).length)
          (hj2 : j < (unique_glyph_names names capacity).length),
        i ≠ j →
        (unique_glyph_names names capacity).get ⟨i, hi2⟩
          ≠ (unique_glyph_names names capacity).get ⟨j, hj2⟩) := by
  refine ⟨unique_glyph_names_length names capacity, ?_, ?_⟩
  · intro i hi hi2
    exact unique_glyph_names_get names capacity i hi hi2
  · intro H1 H2 i j hi2 hj2 hne
    have hi : i < names.length := by
      rw [← unique_glyph_names_length names capacity]
      exact hi2
    have hj : j < names.length := by
      rw [← unique_glyph_names_length names capacity]
      exact hj2
    rcases Nat.lt_or_ge i j with hij | hge
    · exact unique_names_distinct_aux names capacity H1 H2 i j hij hj hi2 hj2
    · have hji : j < i := Nat.lt_of_le_of_ne hge (Ne.symm hne)
      exact (unique_names_distinct_aux names capacity H1 H2 j i hji hi
        hj2 hi2).symm

/-- Witness for C2 on the input with three equal names: length is kept,
the second occurrence is suffixed ".alt01", and with the collision-free
side conditions holding the first two outputs differ. -/
theorem unique_glyph_names_spec_witness :
    (unique_glyph_names ["A", "A", "A"] 3).length = 3
  ∧ (unique_glyph_names ["A", "A", "A"] 3).get ⟨1, by decide⟩
      = alt_name "A" 1
  ∧ (unique_glyph_names ["A", "A", "A"] 3).get ⟨0, by decide⟩
      ≠ (unique_glyph_names ["A", "A", "A"] 3).get ⟨1, by decide⟩ :=
  ⟨(unique_glyph_names_spec ["A", "A", "A"] 3).1,
   by
     rw [(unique_glyph_names_spec ["A", "A", "A"] 3).2.1 1 (by decide)
       (by decide)]
     decide,
   (unique_glyph_names_spec ["A", "A", "A"] 3).2.2 (by decide) (by decide)
     0 1 (by decide) (by decide) (by decide)⟩

/-- C2 counterexample: when an input name equals a generated
alternative name, the outputs are not pairwise distinct — the claim as
stated fails on the input A, A.alt01, A. -/
theorem unique_glyph_names_not_distinct :
    unique_glyph_names ["A", "A.alt01", "A"] 3
      = ["A", "A.alt01", "A.alt01"]
  ∧ ¬ (unique_glyph_names ["A", "A.alt01", "A"] 3).Nodup := by
  constructor
  · decide
  · decide

/-- C10: glyph_names is total at its interface whenever the stored cmap
slice is in bounds: for every collaborator bundle (so also when the post
read fails or the subtable parse fails, both being absorbed) it returns
a plain list holding exactly one name per input index. -/
theorem glyph_names_total (C : Collaborators) (fd : FontDataImpl)
    (ids : List Nat) (data : List Nat)
    (hdata : cmap_subtable_data fd = MayAbort.value data) :
    ∃ out, glyph_names C fd ids = MayAbort.value out
      ∧ out.length = ids.length := by
  simp only [glyph_names, hdata]
  refine ⟨_, rfl, ?_⟩
  rw [unique_glyph_names_length, List.length_map]

/-- Witness for C10 at a failing provider and failing parsers: two
indices still produce exactly two names. -/
theorem glyph_names_total_witness :
    ∃ out, glyph_names noCollab fd0 [0, 1] = MayAbort.value out
      ∧ out.length = 2 :=
  glyph_names_total noCollab fd0 [0, 1] [] rfl
